import Mathlib

/-!
# HTTP redirect demo server (`main.go`)

A shallow embedding of the seven handlers that `main` registers: home,
`/destination`, `/submit-form`, `/protected-page`, `/login`, `/logout` and
`/redirect/`.  Each handler is a function from the request to the response
it leaves in the `http.ResponseWriter`: the status, the `Location` header as
`http.Redirect` writes it, the cookies as `http.SetCookie` writes them into
`Set-Cookie` headers, and the page text.  The functions of net/http, net/url
and path that the handlers go through (`Redirect`, `SetCookie`, `Cookie`,
`FormValue`, `Query`) are part of the embedding.
-/

namespace Http3xx

/-! ## Requests and responses -/

/-- The fields of `http.Cookie` that the handlers fill in (`Name`, `Value`,
`Path`, `MaxAge`, `HttpOnly`); every other field keeps its zero value.  In a
response, a negative `MaxAge` stands for the attribute `Max-Age=0`, which is
how net/http writes it and what it reads back as -1. -/
structure Cookie where
  Name : String
  Value : String
  Path : String
  MaxAge : Int
  HttpOnly : Bool
  deriving DecidableEq, Repr

/-- What a handler reads of `*http.Request`.
* `Method` is `r.Method`;
* `Path` is `r.URL.Path` and `RawQuery` is `r.URL.RawQuery`;
* `URL` is the text `r.URL.String()` returns;
* `PostForm` holds the fields net/http decodes from the request body, in
  order (first occurrence of a key first);
* `CookieHeader` holds the lines of the `Cookie` request header, as sent. -/
structure Request where
  Method : String
  Path : String
  RawQuery : String
  URL : String
  PostForm : List (String × String)
  CookieHeader : List String
  deriving DecidableEq, Repr

/-- The single reply a handler produces.
* `redirect location code` is what `http.Redirect` leaves: the status `code`
  and the `Location` header `location` (see `Redirect` below);
* `error msg code` is `http.Error(w, msg, code)`;
* `notFound` is `http.NotFound(w, r)`;
* `page body` is a body written with `fmt.Fprintf` or `tmpl.Execute` with no
  status set before, which net/http sends with status 200. -/
inductive Reply where
  | redirect (location : String) (code : Nat)
  | error (msg : String) (code : Nat)
  | notFound
  | page (body : String)
  deriving DecidableEq, Repr

/-- A handler run: the cookies of the `Set-Cookie` headers, as `http.SetCookie`
writes them (see `SetCookie` below), in call order, and the reply. -/
structure Response where
  SetCookies : List Cookie
  reply : Reply
  deriving DecidableEq, Repr

/-- Status code of a reply. -/
def Reply.status : Reply → Nat
  | .redirect _ code => code
  | .error _ code => code
  | .notFound => 404
  | .page _ => 200

/-- The `Location` header of a reply; only `http.Redirect` sets one. -/
def Reply.location : Reply → Option String
  | .redirect location _ => some location
  | _ => none

/-- Status code of a response. -/
def Response.status (resp : Response) : Nat := resp.reply.status

/-- The `Location` header of a response, if it has one. -/
def Response.location (resp : Response) : Option String := resp.reply.location

/-! ## Constants of net/http -/

def MethodPost : String := "POST"
def MethodPut : String := "PUT"
def MethodPatch : String := "PATCH"

def StatusMovedPermanently : Nat := 301
def StatusFound : Nat := 302
def StatusSeeOther : Nat := 303
def StatusTemporaryRedirect : Nat := 307
def StatusPermanentRedirect : Nat := 308
def StatusBadRequest : Nat := 400
def StatusMethodNotAllowed : Nat := 405

/-! ## Query strings (net/url) -/

/-- Hex digit test of net/url. -/
def ishex (c : Char) : Bool :=
  ('0' ≤ c && c ≤ '9') || ('a' ≤ c && c ≤ 'f') || ('A' ≤ c && c ≤ 'F')

/-- Value of a hex digit, 0 for any other character. -/
def unhex (c : Char) : Nat :=
  if '0' ≤ c && c ≤ '9' then c.toNat - '0'.toNat
  else if 'a' ≤ c && c ≤ 'f' then c.toNat - 'a'.toNat + 10
  else if 'A' ≤ c && c ≤ 'F' then c.toNat - 'A'.toNat + 10
  else 0

/-- UTF-8 bytes of a character: a Go string is the byte sequence of its
text. -/
def utf8Bytes (c : Char) : List Nat :=
  let n := c.toNat
  if n < 0x80 then [n]
  else if n < 0x800 then [0xC0 + n / 64, 0x80 + n % 64]
  else if n < 0x10000 then [0xE0 + n / 4096, 0x80 + n / 64 % 64, 0x80 + n % 64]
  else [0xF0 + n / 262144, 0x80 + n / 4096 % 64, 0x80 + n / 64 % 64, 0x80 + n % 64]

/-- Replacement character for bytes that are not UTF-8 text. -/
def runeError : Char := Char.ofNat 0xFFFD

/-- Reads bytes back as text.  `acc` is the code point collected so far and
`need` the number of continuation bytes still expected.  A byte sequence that
is not UTF-8 has no text and is read as `runeError`. -/
def utf8Decode : Nat → Nat → List Nat → List Char
  | _, 0, [] => []
  | _, _ + 1, [] => [runeError]
  | _, 0, b :: bs =>
    if b < 0x80 then Char.ofNat b :: utf8Decode 0 0 bs
    else if b < 0xC0 then runeError :: utf8Decode 0 0 bs
    else if b < 0xE0 then utf8Decode (b - 0xC0) 1 bs
    else if b < 0xF0 then utf8Decode (b - 0xE0) 2 bs
    else if b < 0xF8 then utf8Decode (b - 0xF0) 3 bs
    else runeError :: utf8Decode 0 0 bs
  | acc, k + 1, b :: bs =>
    if 0x80 ≤ b && b < 0xC0 then
      if k = 0 then Char.ofNat (acc * 64 + (b - 0x80)) :: utf8Decode 0 0 bs
      else utf8Decode (acc * 64 + (b - 0x80)) k bs
    else if b < 0x80 then runeError :: Char.ofNat b :: utf8Decode 0 0 bs
    else if b < 0xE0 then runeError :: utf8Decode (b - 0xC0) 1 bs
    else if b < 0xF0 then runeError :: utf8Decode (b - 0xE0) 2 bs
    else if b < 0xF8 then runeError :: utf8Decode (b - 0xF0) 3 bs
    else runeError :: runeError :: utf8Decode 0 0 bs

/-- Byte-level pass of `url.QueryUnescape`: `%XX` becomes the byte `XX`, `+`
becomes a space, any other character stands for itself; a `%` that is not
followed by two hex digits is an error (`none`). -/
def unescapeBytes : List Char → Option (List Nat)
  | [] => some []
  | '%' :: a :: b :: rest =>
    if ishex a && ishex b then
      (unescapeBytes rest).map fun bs => (unhex a * 16 + unhex b) :: bs
    else none
  | '%' :: _ => none
  | '+' :: rest => (unescapeBytes rest).map fun bs => 0x20 :: bs
  | c :: rest => (unescapeBytes rest).map fun bs => utf8Bytes c ++ bs

/-- The function `url.QueryUnescape`. -/
def QueryUnescape (s : List Char) : Option (List Char) :=
  (unescapeBytes s).map (utf8Decode 0 0)

/-- Splits at every occurrence of `sep`. -/
def splitOn (sep : Char) : List Char → List (List Char)
  | [] => [[]]
  | c :: cs =>
    if c = sep then [] :: splitOn sep cs
    else
      match splitOn sep cs with
      | [] => [[c]]
      | seg :: segs => (c :: seg) :: segs

/-- The function `strings.Cut(s, sep)` for a one-character separator, without
its `found` result: the text before the first `sep` and the text after it. -/
def cut (sep : Char) : List Char → List Char × List Char
  | [] => ([], [])
  | c :: cs =>
    if c = sep then ([], cs)
    else ((cut sep cs).1.cons c, (cut sep cs).2)

/-- One `key=value` setting of a query string, as the loop body of net/url's
`parseQuery` treats it: skipped when it contains `;`, when it is empty, or
when key or value do not unescape. -/
def parseSetting (seg : List Char) : Option (String × String) :=
  if seg.contains ';' then none
  else if seg = [] then none
  else
    match QueryUnescape (cut '=' seg).1, QueryUnescape (cut '=' seg).2 with
    | some k, some v => some (String.mk k, String.mk v)
    | _, _ => none

/-- The values `url.ParseQuery` collects (its error is dropped by every
caller here): the settings between `&`, in order. -/
def ParseQuery (query : String) : List (String × String) :=
  (splitOn '&' query.data).filterMap parseSetting

/-- The method `Values.Get`: first value of the key, `""` when there is
none. -/
def Get (vs : List (String × String)) (key : String) : String :=
  match vs.lookup key with
  | some v => v
  | none => ""

/-- The values of `r.URL.Query()`. -/
def Request.Query (r : Request) : List (String × String) :=
  ParseQuery r.RawQuery

/-- The field `r.Form` after `ParseForm`: the body fields of a POST, PUT or
PATCH request first, then the query-string values. -/
def Request.Form (r : Request) : List (String × String) :=
  (if r.Method = MethodPost ∨ r.Method = MethodPut ∨ r.Method = MethodPatch
    then r.PostForm else []) ++ r.Query

/-- The method `r.FormValue(key)`: first value of the key in `r.Form`, `""`
when there is none. -/
def Request.FormValue (r : Request) (key : String) : String :=
  Get r.Form key

/-! ## Cookies (net/http) -/

/-- The double quote character. -/
def dquote : Char := Char.ofNat 34

/-- Token characters of HTTP (`httpguts.IsTokenRune`): letters, digits and
the signs ``!#$%&'*+-.^_`|~``. -/
def isTokenRune (c : Char) : Bool :=
  c.isAlphanum || "!#$%&*+-.^_|~".data.contains c || c = Char.ofNat 39 || c = Char.ofNat 96

/-- The function `isCookieNameValid`: a non-empty token. -/
def isCookieNameValid (raw : String) : Bool :=
  raw ≠ "" && raw.data.all isTokenRune

/-- The function `validCookieValueByte`: printable ASCII other than `"`, `;`
and the backslash.  Every byte of a non-ASCII character fails it. -/
def validCookieValueByte (c : Char) : Bool :=
  0x20 ≤ c.toNat && c.toNat < 0x7f && c ≠ dquote && c ≠ ';' && c ≠ Char.ofNat 92

/-- The function `validCookiePathByte`: printable ASCII other than `;`. -/
def validCookiePathByte (c : Char) : Bool :=
  0x20 ≤ c.toNat && c.toNat < 0x7f && c ≠ ';'

/-- The function `sanitizeCookieValue` for an unquoted cookie: the bytes that
are not valid in a cookie value are dropped, and the rest is put in double
quotes when it holds a space or a comma. -/
def sanitizeCookieValue (v : String) : String :=
  let kept := v.data.filter validCookieValueByte
  if kept.contains ' ' || kept.contains ',' then String.mk (dquote :: (kept ++ [dquote]))
  else String.mk kept

/-- The function `sanitizeCookiePath`: the bytes that are not valid in a cookie
path are dropped. -/
def sanitizeCookiePath (v : String) : String :=
  String.mk (v.data.filter validCookiePathByte)

/-- The function `http.SetCookie`: nothing is added for an invalid cookie name;
otherwise one `Set-Cookie` header with the sanitized value and path. -/
def SetCookie (c : Cookie) : List Cookie :=
  if isCookieNameValid c.Name then
    [{ c with Value := sanitizeCookieValue c.Value, Path := sanitizeCookiePath c.Path }]
  else []

/-- The text of the `Set-Cookie` header of a written cookie (`Cookie.String`):
name and value, then `Path`, `Max-Age` and `HttpOnly` when set. -/
def Cookie.header (c : Cookie) : String :=
  c.Name ++ "=" ++ c.Value
    ++ (if c.Path ≠ "" then "; Path=" ++ c.Path else "")
    ++ (if 0 < c.MaxAge then "; Max-Age=" ++ c.MaxAge.toNat.repr
        else if c.MaxAge < 0 then "; Max-Age=0" else "")
    ++ (if c.HttpOnly then "; HttpOnly" else "")

/-- White space of `textproto.TrimString`. -/
def isASCIISpace (c : Char) : Bool :=
  c = ' ' || c = '\t' || c = '\n' || c = '\r'

/-- The function `textproto.TrimString`: leading and trailing white space
removed. -/
def TrimString (s : List Char) : List Char :=
  ((s.dropWhile isASCIISpace).reverse.dropWhile isASCIISpace).reverse

/-- The function `parseCookieValue` with double quotes allowed: surrounding
double quotes are stripped, and the value is refused (`none`) when it holds a
byte that is not valid in a cookie value. -/
def parseCookieValue (raw : List Char) : Option (List Char) :=
  let raw :=
    if 1 < raw.length ∧ raw.head? = some dquote ∧ raw.getLast? = some dquote
    then (raw.drop 1).dropLast else raw
  if raw.all validCookieValueByte then some raw else none

/-- One `name=value` part of a `Cookie` header line, as the loop body of
`readCookies` treats it: skipped when it is empty, when the name is not a
valid cookie name or not the one asked for, or when the value is refused. -/
def readCookie (filter : String) (part : List Char) : Option (String × String) :=
  let part := TrimString part
  if part = [] then none
  else
    let name := String.mk (TrimString (cut '=' part).1)
    if !isCookieNameValid name then none
    else if filter ≠ "" ∧ filter ≠ name then none
    else (parseCookieValue (cut '=' part).2).map fun v => (name, String.mk v)

/-- The function `readCookies`: the cookies of the `Cookie` header lines, the
parts of a line being separated by `;`. -/
def readCookies (lines : List String) (filter : String) : List (String × String) :=
  lines.flatMap fun line => (splitOn ';' (TrimString line.data)).filterMap (readCookie filter)

/-- The method `r.Cookie(name)`: the value of the first cookie of that name that
`readCookies` finds, `none` for `http.ErrNoCookie`. -/
def Request.Cookie (r : Request) (name : String) : Option String :=
  if name = "" then none
  else (readCookies r.CookieHeader name).head?.map fun c => c.2

/-! ## Redirects (net/http, net/url, path) -/

/-- Rewrites a path element by element for `path.Clean`: empty elements and `.`
are dropped, `..` removes the element before it, or is dropped at the root, or
is kept at the start of a path that is not rooted.  `stack` holds the elements
kept so far, last first. -/
def cleanElems (rooted : Bool) : List (List Char) → List (List Char) → List (List Char)
  | stack, [] => stack.reverse
  | stack, e :: es =>
    if e = [] ∨ e = ['.'] then cleanElems rooted stack es
    else if e = ['.', '.'] then
      match stack with
      | [] => if rooted then cleanElems rooted [] es else cleanElems rooted [e] es
      | top :: below =>
        if top = ['.', '.'] then cleanElems rooted (e :: stack) es
        else cleanElems rooted below es
    else cleanElems rooted (e :: stack) es

/-- Joins path elements with `/`. -/
def joinSlash : List (List Char) → List Char
  | [] => []
  | [e] => e
  | e :: es => e ++ '/' :: joinSlash es

/-- The function `path.Clean`: the shortest equivalent path; `.` for an empty
result. -/
def Clean (path : List Char) : List Char :=
  if path = [] then ['.']
  else
    let rooted := path.head? = some '/'
    let out := joinSlash (cleanElems rooted [] (splitOn '/' path))
    if rooted then '/' :: out
    else if out = [] then ['.']
    else out

/-- Control bytes that `url.Parse` refuses. -/
def isCTL (c : Char) : Bool :=
  c.toNat < 0x20 || c.toNat = 0x7f

/-- Whether net/url's `unescape` accepts a path, fragment or user name: every
`%` is followed by two hex digits. -/
def validEscapes : List Char → Bool
  | [] => true
  | '%' :: a :: b :: rest => ishex a && ishex b && validEscapes rest
  | '%' :: _ => false
  | _ :: rest => validEscapes rest

/-- The function `getScheme` of net/url, `scheme` holding the characters read
so far, last first: the scheme before the first `:` and the rest, an empty
scheme and the whole text when there is none, `none` for the error of a
leading `:`. -/
def getScheme (whole : List Char) : List Char → List Char → Option (List Char × List Char)
  | _, [] => some ([], whole)
  | scheme, c :: cs =>
    if c.isAlpha then getScheme whole (c :: scheme) cs
    else if c.isDigit || c = '+' || c = '-' || c = '.' then
      if scheme = [] then some ([], whole) else getScheme whole (c :: scheme) cs
    else if c = ':' then
      if scheme = [] then none else some (scheme.reverse, cs)
    else some ([], whole)

/-- The function `validUserinfo` of net/url. -/
def validUserinfo (s : List Char) : Bool :=
  s.all fun c => c.isAlphanum || "-._:~!$&()*+,;=%@".data.contains c || c = Char.ofNat 39

/-- Whether `parseAuthority` succeeds with an empty host: nothing follows the
last `@`, and the user information before it, if any, is valid. -/
def emptyHost (authority : List Char) : Bool :=
  if authority.contains '@' then
    let host := (cut '@' authority.reverse).1.reverse
    let userinfo := (cut '@' authority.reverse).2.reverse
    host = [] && validUserinfo userinfo &&
      (if userinfo.contains ':' then
        validEscapes (cut ':' userinfo).1 && validEscapes (cut ':' userinfo).2
      else validEscapes userinfo)
  else authority = []

/-- Whether `url.Parse` succeeds on the text with an empty `Scheme` and an empty
`Host`, which is when `http.Redirect` takes a target as relative to the
request. -/
def parsesRelative (rawURL : List Char) : Bool :=
  let u := (cut '#' rawURL).1
  let frag := (cut '#' rawURL).2
  (if u.any isCTL then false
    else if u = ['*'] then true
    else
      match getScheme u [] u with
      | none => false
      | some (scheme, rest) =>
        let rest := (cut '?' rest).1
        if scheme ≠ [] then false
        else if rest.head? ≠ some '/' ∧ (cut '/' rest).1.contains ':' then false
        else if rest.take 2 = ['/', '/'] ∧ rest.take 3 ≠ ['/', '/', '/'] then
          let authority := (cut '/' (rest.drop 2)).1
          let path := if (rest.drop 2).contains '/' then '/' :: (cut '/' (rest.drop 2)).2 else []
          emptyHost authority && validEscapes path
        else validEscapes rest)
    && validEscapes frag

/-- The directory part of `path.Split`: the text up to the last `/`. -/
def dirOf (path : List Char) : List Char :=
  (path.reverse.dropWhile fun c => c ≠ '/').reverse

/-- What `http.Redirect` makes of a relative target: it is put after the
directory of the request path when it does not start with `/`, and its part
before the first `?` is cleaned with `path.Clean`, a trailing slash being
kept. -/
def absoluteTarget (oldpath url : List Char) : List Char :=
  let oldpath := if oldpath = [] then ['/'] else oldpath
  let url := if url.head? ≠ some '/' then dirOf oldpath ++ url else url
  let query := if url.contains '?' then '?' :: (cut '?' url).2 else []
  let url := (cut '?' url).1
  let trailing := url.getLast? = some '/'
  let url := Clean url
  let url := if trailing ∧ url.getLast? ≠ some '/' then url ++ ['/'] else url
  url ++ query

/-- A path element that `path.Clean` keeps: not empty, not `.` and not `..`. -/
def plainElem (e : List Char) : Bool :=
  e ≠ [] && e ≠ ['.'] && e ≠ ['.', '.']

/-- An absolute path in clean form, with or without a query: the part before
the first `?` is `/`, or starts with `/` and has plain elements between its
slashes. -/
def isCleanAbsolute (url : List Char) : Bool :=
  ((cut '?' url).1.head? = some '/') &&
    ((cut '?' url).1 = ['/'] || (splitOn '/' ((cut '?' url).1.drop 1)).all plainElem)

/-- Lower-case hex digit. -/
def hexDigit (n : Nat) : Char :=
  "0123456789abcdef".data.getD n '0'

/-- The function `hexEscapeNonASCII`: every byte of a non-ASCII character is
written as `%xx` in lower-case hex. -/
def hexEscapeNonASCII (s : List Char) : List Char :=
  s.flatMap fun c =>
    if c.toNat < 0x80 then [c]
    else (utf8Bytes c).flatMap fun b => ['%', hexDigit (b / 16), hexDigit (b % 16)]

/-- The `Location` header `http.Redirect(w, r, url, code)` sets: the target,
rewritten to an absolute path when `url.Parse` finds neither scheme nor host
in it, with its non-ASCII bytes escaped. -/
def Location (r : Request) (url : String) : String :=
  String.mk (hexEscapeNonASCII
    (if parsesRelative url.data then absoluteTarget r.Path.data url.data else url.data))

/-- The function `http.Redirect`. -/
def Redirect (r : Request) (url : String) (code : Nat) : Reply :=
  .redirect (Location r url) code

/-! ## Page texts -/

/-- The constant `htmlTemplate`: the home page.  It holds no template action,
so executing it writes the text as it stands. -/
def htmlTemplate : String :=
"
<!DOCTYPE html>
<html>
<head>
    <title>HTTP 重定向演示</title>
    <style>
        body \x7b
            font-family: Arial, sans-serif;
            max-width: 800px;
            margin: 0 auto;
            padding: 20px;
            line-height: 1.6;
        \x7d
        .redirect-type \x7b
            margin: 20px 0;
            padding: 15px;
            border: 1px solid #ddd;
            border-radius: 5px;
        \x7d
        h2 \x7b
            color: #333;
        \x7d
        .description \x7b
            background-color: #f5f5f5;
            padding: 10px;
            border-radius: 3px;
        \x7d
        .test-link \x7b
            display: inline-block;
            margin: 10px 0;
            padding: 8px 15px;
            background-color: #007bff;
            color: white;
            text-decoration: none;
            border-radius: 4px;
        \x7d
        .test-link:hover \x7b
            background-color: #0056b3;
        \x7d
    </style>
</head>
<body>
    <h1>HTTP 重定向状态码演示</h1>
    
    <div class=\"redirect-type\">
        <h2>301 - Moved Permanently（永久重定向）</h2>
        <div class=\"description\">
            <p>用途：资源永久移动到新位置</p>
            <p>特点：</p>
            <ul>
                <li>浏览器会缓存这个重定向</li>
                <li>搜索引擎会更新资源的新地址</li>
                <li>通常用于网站域名变更或者永久性的URL结构改变</li>
            </ul>
        </div>
        <a href=\"/redirect/301\" class=\"test-link\">测试 301 重定向</a>
    </div>

    <div class=\"redirect-type\">
        <h2>302 - Found（临时重定向）</h2>
        <div class=\"description\">
            <p>用途：资源临时移动到新位置</p>
            <p>特点：</p>
            <ul>
                <li>浏览器不会缓存重定向</li>
                <li>保持原有的 HTTP 方法</li>
                <li>常用于临时维护页面、A/B测试等场景</li>
                <li>在用户登录场景中广泛使用：
                    <ul>
                        <li>未登录用户访问需要认证的页面时，重定向到登录页面</li>
                        <li>登录成功后，重定向回原始请求页面</li>
                    </ul>
                </li>
            </ul>
        </div>
        <div style=\"margin-top: 15px;\">
            <a href=\"/protected-page\" class=\"test-link\">访问需要登录的页面（302 重定向到登录）</a>
        </div>
    </div>

    <div class=\"redirect-type\">
        <h2>303 - See Other</h2>
        <div class=\"description\">
            <p>用途：通常用于POST请求后的重定向</p>
            <p>特点：</p>
            <ul>
                <li>强制使用GET方法访问新地址</li>
                <li>常用于表单提交后重定向到结果页面</li>
                <li>防止表单重复提交</li>
            </ul>
        </div>
        <form action=\"/submit-form\" method=\"POST\" style=\"margin-top: 15px;\">
            <input type=\"text\" name=\"message\" placeholder=\"输入一些内容...\" style=\"padding: 8px; margin-right: 10px; border: 1px solid #ddd; border-radius: 4px;\">
            <button type=\"submit\" class=\"test-link\" style=\"border: none; cursor: pointer;\">提交表单 (303 重定向)</button>
        </form>
    </div>

    <div class=\"redirect-type\">
        <h2>307 - Temporary Redirect</h2>
        <div class=\"description\">
            <p>用途：临时重定向，但严格保持原有HTTP方法</p>
            <p>特点：</p>
            <ul>
                <li>与302类似，但保证请求方法不变</li>
                <li>如果原请求是POST，重定向后仍然是POST</li>
                <li>适用于需要严格保持HTTP方法的场景</li>
            </ul>
        </div>
        <form action=\"/redirect/307\" method=\"POST\" style=\"margin-top: 15px;\">
            <input type=\"text\" name=\"message\" placeholder=\"输入一些内容...\" style=\"padding: 8px; margin-right: 10px; border: 1px solid #ddd; border-radius: 4px;\">
            <button type=\"submit\" class=\"test-link\" style=\"border: none; cursor: pointer;\">POST 提交 (307 重定向)</button>
        </form>
    </div>

    <div class=\"redirect-type\">
        <h2>308 - Permanent Redirect</h2>
        <div class=\"description\">
            <p>用途：永久重定向，但严格保持原有HTTP方法</p>
            <p>特点：</p>
            <ul>
                <li>类似于301，但保证请求方法不变</li>
                <li>永久性质的重定向</li>
                <li>适用于需要永久重定向且保持HTTP方法的场景</li>
            </ul>
        </div>
        <div style=\"margin-top: 15px;\">
            <input type=\"text\" id=\"put-message\" placeholder=\"输入一些内容...\" style=\"padding: 8px; margin-right: 10px; border: 1px solid #ddd; border-radius: 4px;\">
            <button onclick=\"sendPutRequest()\" class=\"test-link\" style=\"border: none; cursor: pointer;\">PUT 提交 (308 重定向)</button>
        </div>
        <script>
        function sendPutRequest() \x7b
            const message = document.getElementById('put-message').value;
            fetch('/redirect/308', \x7b
                method: 'PUT',
                headers: \x7b
                    'Content-Type': 'application/x-www-form-urlencoded',
                \x7d,
                body: 'message=' + encodeURIComponent(message),
                redirect: 'follow'
            \x7d).then(response => \x7b
                if (response.redirected) \x7b
                    window.location.href = response.url;
                \x7d
            \x7d);
        \x7d
        </script>
    </div>
</body>
</html>
"

/-- The line of the destination page that echoes the message:
`fmt.Sprintf` of the message into its paragraph. -/
def messageLine (message : String) : String :=
  "<p>提交的消息: " ++ message ++ "</p>"

/-- The text the destination handler writes: its format string with the three
`%s` filled by the redirect type, the request method and the message line. -/
def destinationPage (redirectType method messageHTML : String) : String :=
  "
\t\t\t<html>
\t\t\t<body>
\t\t\t\t<h1>目标页面</h1>
\t\t\t\t<p>你是通过 "
  ++ redirectType ++
  " 重定向到达此页面的</p>
\t\t\t\t<p>使用的 HTTP 方法: "
  ++ method ++
  "</p>
\t\t\t\t"
  ++ messageHTML ++
  "
\t\t\t\t<p><a href=\"/\">返回首页</a></p>
\t\t\t</body>
\t\t\t</html>
\t\t"

/-- The text the protected page writes for a logged-in user: its format string
with `%s` filled by the user name. -/
def protectedPage (username : String) : String :=
  "
\t\t\t<html>
\t\t\t<body>
\t\t\t\t<h1>受保护的页面</h1>
\t\t\t\t<p>欢迎，"
  ++ username ++
  "！</p>
\t\t\t\t<p>这是一个需要登录才能访问的页面。</p>
\t\t\t\t<p>你现在已经登录了，所以可以看到这个内容。</p>
\t\t\t\t<p><a href=\"/logout\">退出登录</a></p>
\t\t\t\t<p><a href=\"/\">返回首页</a></p>
\t\t\t</body>
\t\t\t</html>
\t\t"

/-- The text of the login form: its format string with `%s`, the value of the
hidden `return_to` field, filled by `returnTo`. -/
def loginPage (returnTo : String) : String :=
  "
\t\t\t<html>
\t\t\t<body>
\t\t\t\t<h1>登录页面</h1>
\t\t\t\t<p>这是一个模拟的登录页面，展示 302 重定向在登录流程中的应用。</p>
\t\t\t\t<form method=\"POST\" action=\"/login\" style=\"margin: 20px 0;\">
\t\t\t\t\t<input type=\"hidden\" name=\"return_to\" value=\""
  ++ returnTo ++
  "\">
\t\t\t\t\t<div style=\"margin-bottom: 10px;\">
\t\t\t\t\t\t<input type=\"text\" name=\"username\" placeholder=\"输入用户名\" 
\t\t\t\t\t\t\tstyle=\"padding: 8px; border: 1px solid #ddd; border-radius: 4px; width: 200px;\">
\t\t\t\t\t</div>
\t\t\t\t\t<button type=\"submit\" style=\"padding: 8px 15px; background-color: #007bff; color: white; border: none; border-radius: 4px; cursor: pointer;\">
\t\t\t\t\t\t登录
\t\t\t\t\t</button>
\t\t\t\t</form>
\t\t\t\t<p><a href=\"/\">返回首页</a></p>
\t\t\t</body>
\t\t\t</html>
\t\t"

/-! ## The handlers of `main` -/

/-- Handler of `/`: the home page for the exact path `/`, not found for any
other path that reaches it. -/
def homeHandler (r : Request) : Response :=
  if r.Path ≠ "/" then ⟨[], .notFound⟩
  else ⟨[], .page htmlTemplate⟩

/-- Handler of `/destination`. -/
def destinationHandler (r : Request) : Response :=
  let redirectType := Get r.Query "type"
  let message := Get r.Query "message"
  let messageHTML := if message ≠ "" then messageLine message else ""
  ⟨[], .page (destinationPage redirectType r.Method messageHTML)⟩

/-- Handler of `/submit-form`. -/
def submitFormHandler (r : Request) : Response :=
  if r.Method ≠ MethodPost then
    ⟨[], .error "只接受 POST 请求" StatusMethodNotAllowed⟩
  else
    let message := r.FormValue "message"
    let destination := "/destination?type=303&message=" ++ message
    ⟨[], Redirect r destination StatusSeeOther⟩

/-- The closure `checkLogin`: whether the request carries a `session` cookie,
and its value. -/
def checkLogin (r : Request) : Bool × String :=
  match r.Cookie "session" with
  | none => (false, "")
  | some value => (true, value)

/-- Handler of `/protected-page`. -/
def protectedPageHandler (r : Request) : Response :=
  let (loggedIn, username) := checkLogin r
  if !loggedIn then
    let returnTo := r.URL
    ⟨[], Redirect r ("/login?return_to=" ++ returnTo) StatusFound⟩
  else
    ⟨[], .page (protectedPage username)⟩

/-- Handler of `/login`. -/
def loginHandler (r : Request) : Response :=
  if r.Method = MethodPost then
    let username := r.FormValue "username"
    if username = "" then
      ⟨[], .error "请输入用户名" StatusBadRequest⟩
    else
      let cookie : Cookie :=
        { Name := "session", Value := username, Path := "/", MaxAge := 3600, HttpOnly := true }
      let returnTo := r.FormValue "return_to"
      let returnTo := if returnTo = "" then "/protected-page" else returnTo
      ⟨SetCookie cookie, Redirect r returnTo StatusFound⟩
  else
    let returnTo := Get r.Query "return_to"
    ⟨[], .page (loginPage returnTo)⟩

/-- Handler of `/logout`. -/
def logoutHandler (r : Request) : Response :=
  let cookie : Cookie :=
    { Name := "session", Value := "", Path := "/", MaxAge := -1, HttpOnly := true }
  ⟨SetCookie cookie, Redirect r "/" StatusFound⟩

/-- Handler of `/redirect/`.  The slice `r.URL.Path[len("/redirect/"):]` drops
the ten bytes of the pattern, which every path routed here starts with; on a
shorter path the slice is out of range and the handler panics (`none`). -/
def redirectHandler (r : Request) : Option Response :=
  if r.Path.length < "/redirect/".length then none
  else
    let redirectType := String.mk (r.Path.data.drop "/redirect/".length)
    let message :=
      if r.Method = MethodPost ∨ r.Method = MethodPut then r.FormValue "message" else ""
    let destination := "/destination?type=" ++ redirectType
    let destination :=
      if message ≠ "" then destination ++ "&message=" ++ message else destination
    if redirectType = "301" then some ⟨[], Redirect r destination StatusMovedPermanently⟩
    else if redirectType = "302" then some ⟨[], Redirect r destination StatusFound⟩
    else if redirectType = "307" then some ⟨[], Redirect r destination StatusTemporaryRedirect⟩
    else if redirectType = "308" then some ⟨[], Redirect r destination StatusPermanentRedirect⟩
    else some ⟨[], .notFound⟩

/-- The patterns `main` registers with `http.HandleFunc`. -/
inductive Route where
  | home | destination | submitForm | protectedPage | login | logout | redirect
  deriving DecidableEq, Repr

/-- The handler registered for a route, run on a request; `none` is a
panic. -/
def serve : Route → Request → Option Response
  | .home, r => some (homeHandler r)
  | .destination, r => some (destinationHandler r)
  | .submitForm, r => some (submitFormHandler r)
  | .protectedPage, r => some (protectedPageHandler r)
  | .login, r => some (loginHandler r)
  | .logout, r => some (logoutHandler r)
  | .redirect, r => redirectHandler r

/-! ## The client side: following redirects, the login form, the cookie jar -/

/-- The function `url.QueryEscape` on one byte: a space becomes `+`, letters,
digits and `-`, `_`, `.`, `~` stand for themselves, every other byte becomes
`%XX` in upper-case hex. -/
def escapeByte (b : Nat) : List Char :=
  let c := Char.ofNat b
  if b = 0x20 then ['+']
  else if c.isAlphanum || c = '-' || c = '_' || c = '.' || c = '~' then [c]
  else ['%', "0123456789ABCDEF".data.getD (b / 16) '0', "0123456789ABCDEF".data.getD (b % 16) '0']

/-- The function `url.QueryEscape`: the URL-encoding of a query value.  No
handler calls it. -/
def QueryEscape (s : String) : String :=
  String.mk ((s.data.flatMap utf8Bytes).flatMap escapeByte)

/-- Query string of a redirect target `path?query#fragment`: the text after the
first `?` of what stands before the first `#`. -/
def queryOf (target : String) : String :=
  String.mk (cut '?' (cut '#' target.data).1).2

/-- The GET request of a client that follows a redirect to the target
`path?query#fragment` on the same server, for a path without escapes; the
fragment stays with the client, and `cookies` are the `Cookie` header lines it
sends. -/
def follow (target : String) (cookies : List String) : Request :=
  { Method := "GET"
    Path := String.mk (cut '?' (cut '#' target.data).1).1
    RawQuery := queryOf target
    URL := String.mk (cut '#' target.data).1
    PostForm := []
    CookieHeader := cookies }

/-- The request a browser sends when the login form is submitted: a POST to
the form's action `/login` with the hidden `return_to` field and the typed
`username`. -/
def submitLogin (returnTo username : String) (cookies : List String) : Request :=
  { Method := "POST"
    Path := "/login"
    RawQuery := ""
    URL := "/login"
    PostForm := [("return_to", returnTo), ("username", username)]
    CookieHeader := cookies }

/-- The text of the session cookie a client holds after one `Set-Cookie`
header, from the one it held before: a positive `Max-Age` stores the value as
it stands in the header, `Max-Age=0` (a negative `MaxAge`) removes the cookie,
and without `Max-Age` the value is stored for the browser session.  Cookies of
another name leave it alone. -/
def storeCookie (held : Option String) (c : Cookie) : Option String :=
  if c.Name ≠ "session" then held
  else if 0 < c.MaxAge then some c.Value
  else if c.MaxAge < 0 then none
  else some c.Value

/-- The session cookie a client holds after a response. -/
def receive (held : Option String) (resp : Response) : Option String :=
  resp.SetCookies.foldl storeCookie held

/-- The `Cookie` header a client sends: the session cookie it holds, as
`name=value`, or no header. -/
def cookieHeader : Option String → List String
  | none => []
  | some value => ["session=" ++ value]

/-! ## Shared lemmas -/

/-- Cutting at a separator that first occurs after `pre`. -/
theorem cut_append (sep : Char) (pre rest : List Char) (h : sep ∉ pre) :
    cut sep (pre ++ sep :: rest) = (pre, rest) := by
  induction pre with
  | nil => simp [cut]
  | cons c cs ih =>
    have hc : c ≠ sep := fun e => h (by simp [e])
    have hcs : sep ∉ cs := fun e => h (by simp [e])
    simp [cut, hc, ih hcs]

/-- A text is its part before the first separator, followed by the separator
and the part after it when there is one. -/
theorem cut_join (sep : Char) (l : List Char) :
    (cut sep l).1 ++ (if l.contains sep then sep :: (cut sep l).2 else []) = l := by
  induction l with
  | nil => simp [cut]
  | cons c cs ih =>
    by_cases hc : c = sep
    · subst hc
      simp [cut]
    · have hne : (sep == c) = false := by
        simp only [beq_eq_false_iff_ne, ne_eq]
        exact fun e => hc e.symm
      simp only [cut, if_neg hc, List.cons_append, List.contains_cons, hne, Bool.false_or]
      rw [ih]

/-- The head of the part before the first separator is the head of the
text. -/
theorem head_of_cut_head (sep c : Char) (l : List Char)
    (h : (cut sep l).1.head? = some c) : l.head? = some c := by
  cases l with
  | nil => simp [cut] at h
  | cons d ds =>
    by_cases hd : d = sep
    · simp [cut, hd] at h
    · simpa [cut, hd] using h

/-- Splitting never gives an empty list of parts. -/
theorem splitOn_ne_nil (sep : Char) (l : List Char) : splitOn sep l ≠ [] := by
  induction l with
  | nil => simp [splitOn]
  | cons c cs ih =>
    unfold splitOn
    split_ifs
    · simp
    · cases h : splitOn sep cs <;> simp

/-- Joining the parts of a split with the separator `/` gives the text back. -/
theorem joinSlash_splitOn (l : List Char) : joinSlash (splitOn '/' l) = l := by
  induction l with
  | nil => simp [splitOn, joinSlash]
  | cons c cs ih =>
    unfold splitOn
    split_ifs with hc
    · cases h : splitOn '/' cs with
      | nil => exact absurd h (splitOn_ne_nil _ _)
      | cons seg segs =>
        rw [h] at ih
        simp [joinSlash, ih, hc]
    · cases h : splitOn '/' cs with
      | nil => exact absurd h (splitOn_ne_nil _ _)
      | cons seg segs =>
        rw [h] at ih
        cases segs with
        | nil =>
          simp only [joinSlash] at ih ⊢
          rw [ih]
        | cons seg2 rest =>
          simp only [joinSlash, List.cons_append] at ih ⊢
          rw [ih]

/-- A text without the separator is its own single part. -/
theorem splitOn_of_not_mem (sep : Char) (l : List Char) (h : sep ∉ l) :
    splitOn sep l = [l] := by
  induction l with
  | nil => simp [splitOn]
  | cons c cs ih =>
    have hc : c ≠ sep := fun e => h (by simp [e])
    have hcs : sep ∉ cs := fun e => h (by simp [e])
    simp [splitOn, hc, ih hcs]

/-- Plain elements are all kept by the cleaning pass. -/
theorem cleanElems_plain (rooted : Bool) (es stack : List (List Char))
    (h : es.all plainElem = true) : cleanElems rooted stack es = stack.reverse ++ es := by
  induction es generalizing stack with
  | nil => simp [cleanElems]
  | cons e es ih =>
    simp only [List.all_cons, Bool.and_eq_true] at h
    obtain ⟨he, hes⟩ := h
    simp only [plainElem, Bool.and_eq_true, decide_eq_true_eq] at he
    obtain ⟨⟨h1, h2⟩, h3⟩ := he
    unfold cleanElems
    rw [if_neg (by simp [h1, h2]), if_neg h3, ih _ hes]
    simp

/-- ASCII text has nothing to escape. -/
theorem hexEscapeNonASCII_ascii (s : List Char) (h : ∀ c ∈ s, c.toNat < 0x80) :
    hexEscapeNonASCII s = s := by
  induction s with
  | nil => rfl
  | cons c cs ih =>
    have hc : c.toNat < 0x80 := h c (by simp)
    have hcs : ∀ d ∈ cs, d.toNat < 0x80 := fun d hd => h d (by simp [hd])
    have := ih hcs
    unfold hexEscapeNonASCII at this ⊢
    simp only [List.flatMap_cons, if_pos hc, List.singleton_append, this]

/-- The rewriting of `http.Redirect` leaves an absolute path in clean form as
it is. -/
theorem absoluteTarget_clean (oldpath url : List Char) (h : isCleanAbsolute url = true) :
    absoluteTarget oldpath url = url := by
  simp only [isCleanAbsolute, Bool.and_eq_true, Bool.or_eq_true, decide_eq_true_eq] at h
  obtain ⟨hhead, hplain⟩ := h
  have hurl : url.head? = some '/' := head_of_cut_head '?' '/' url hhead
  have hclean : Clean (cut '?' url).1 = (cut '?' url).1 := by
    rcases hplain with hroot | hplain
    · rw [hroot]
      decide
    · cases hp : (cut '?' url).1 with
      | nil => rw [hp] at hhead; simp at hhead
      | cons c rest =>
        rw [hp] at hhead hplain
        simp only [List.head?_cons, Option.some.injEq] at hhead
        subst hhead
        simp only [List.drop_succ_cons, List.drop_zero] at hplain
        have hs : splitOn '/' ('/' :: rest) = [] :: splitOn '/' rest := by
          simp [splitOn]
        have hc0 : cleanElems true [] ([] :: splitOn '/' rest) = splitOn '/' rest := by
          unfold cleanElems
          rw [if_pos (Or.inl rfl), cleanElems_plain _ _ _ hplain]
          simp
        simp [Clean, hs, hc0, joinSlash_splitOn]
  unfold absoluteTarget
  simp only [hurl, ne_eq, not_true_eq_false, if_false, hclean]
  have hno : ¬ ((cut '?' url).1.getLast? = some '/' ∧ ¬ (cut '?' url).1.getLast? = some '/') :=
    fun hh => hh.2 hh.1
  rw [if_neg hno]
  exact cut_join '?' url

/-- The `Location` header for a target that is an absolute path in clean form:
the target with its non-ASCII bytes escaped. -/
theorem Location_clean (r : Request) (url : String) (h : isCleanAbsolute url.data = true) :
    Location r url = String.mk (hexEscapeNonASCII url.data) := by
  unfold Location
  rw [absoluteTarget_clean _ _ h, ite_self]

/-- Cutting at a separator that does not occur. -/
theorem cut_of_not_mem (sep : Char) (l : List Char) (h : sep ∉ l) : cut sep l = (l, []) := by
  induction l with
  | nil => simp [cut]
  | cons c cs ih =>
    have hc : c ≠ sep := fun e => h (by simp [e])
    have hcs : sep ∉ cs := fun e => h (by simp [e])
    simp [cut, hc, ih hcs]

/-- A clean absolute path stays clean when a query is put after it. -/
theorem isCleanAbsolute_query (p q : List Char) (hq : '?' ∉ p)
    (hp : isCleanAbsolute p = true) : isCleanAbsolute (p ++ '?' :: q) = true := by
  unfold isCleanAbsolute at hp ⊢
  rw [cut_of_not_mem '?' p hq] at hp
  rw [cut_append '?' p q hq]
  exact hp

/-- The `Location` header for the targets the handlers build from a fixed path
and a query: the target with its non-ASCII bytes escaped. -/
theorem Location_query (r : Request) (p q : String) (hq : '?' ∉ p.data)
    (hp : isCleanAbsolute p.data = true) :
    Location r (p ++ "?" ++ q) = String.mk (hexEscapeNonASCII (p ++ "?" ++ q).data) := by
  apply Location_clean
  have e : (p ++ "?" ++ q).data = p.data ++ '?' :: q.data := by
    simp only [String.data_append, List.append_assoc]
    rfl
  rw [e]
  exact isCleanAbsolute_query _ _ hq hp
/-- Escaping after an ASCII prefix escapes what follows it. -/
theorem hexEscape_prefix (pre s : String) (h : ∀ c ∈ pre.data, c.toNat < 0x80) :
    String.mk (hexEscapeNonASCII (pre ++ s).data) = pre ++ String.mk (hexEscapeNonASCII s.data) := by
  apply String.ext
  have e : hexEscapeNonASCII (pre.data ++ s.data)
      = hexEscapeNonASCII pre.data ++ hexEscapeNonASCII s.data := by
    unfold hexEscapeNonASCII
    rw [List.flatMap_append]
  simp only [String.data_append, e, hexEscapeNonASCII_ascii _ h]

/-- Trimming leaves a text as it is when it neither starts nor ends with white
space. -/
theorem TrimString_id (l : List Char) (a b : Char) (ha : l.head? = some a)
    (hb : l.getLast? = some b) (hna : isASCIISpace a = false) (hnb : isASCIISpace b = false) :
    TrimString l = l := by
  unfold TrimString
  have h1 : l.dropWhile isASCIISpace = l := by
    cases l with
    | nil => rfl
    | cons c cs =>
      simp only [List.head?_cons, Option.some.injEq] at ha
      subst ha
      simp [List.dropWhile, hna]
  rw [h1]
  have h2 : l.reverse.head? = some b := by rw [List.head?_reverse]; exact hb
  have h3 : l.reverse.dropWhile isASCIISpace = l.reverse := by
    cases hr : l.reverse with
    | nil => rfl
    | cons c cs =>
      rw [hr] at h2
      simp only [List.head?_cons, Option.some.injEq] at h2
      subst h2
      simp [List.dropWhile, hnb]
  rw [h3, List.reverse_reverse]

/-- A valid cookie value byte is neither white space, nor `;`, nor a double
quote. -/
theorem validCookieValueByte_plain (c : Char) (h : validCookieValueByte c = true) :
    c ≠ ';' ∧ c ≠ dquote ∧ c ≠ '\t' ∧ c ≠ '\n' ∧ c ≠ '\r' := by
  unfold validCookieValueByte at h
  simp only [Bool.and_eq_true, decide_eq_true_eq, bne_iff_ne, ne_eq] at h
  obtain ⟨⟨⟨⟨h1, _⟩, h3⟩, h4⟩, _⟩ := h
  refine ⟨h4, h3, ?_, ?_, ?_⟩ <;>
  · rintro rfl
    revert h1
    decide

/-- The header `session=<value>` is read back as the value, when the value
is made of valid cookie value bytes, has no `;`, does not end with white
space, and is put between double quotes or not. -/
theorem Cookie_session (r : Request) (w val : List Char)
    (hh : r.CookieHeader = [String.mk ("session=".data ++ w)])
    (hsemi : ';' ∉ w)
    (hlast : ∀ b, w.getLast? = some b → isASCIISpace b = false)
    (hval : parseCookieValue w = some val) :
    r.Cookie "session" = some (String.mk val) := by
  have hline : TrimString ("session=".data ++ w) = "session=".data ++ w := by
    cases hw : w.getLast? with
    | none =>
      have : w = [] := by
        cases w with
        | nil => rfl
        | cons c cs => simp [List.getLast?_cons] at hw
      subst this
      decide
    | some b =>
      refine TrimString_id _ 's' b rfl ?_ (by decide) (hlast b hw)
      rw [List.getLast?_append, hw]
      rfl
  have hsplit : splitOn ';' ("session=".data ++ w) = ["session=".data ++ w] := by
    apply splitOn_of_not_mem
    intro hm
    rcases List.mem_append.1 hm with h | h
    · revert h
      decide
    · exact hsemi h
  have hcut : cut '=' ("session=".data ++ w) = ("session".data, w) :=
    cut_append '=' "session".data w (by decide)
  have hread : readCookie "session" ("session=".data ++ w)
      = some ("session", String.mk val) := by
    unfold readCookie
    simp only [hline, hcut, hval]
    have hne : ¬ ("session=".data ++ w = []) := by
      intro h
      have := congrArg List.length h
      simp at this
    rw [if_neg hne]
    have ht : TrimString "session".data = "session".data := by decide
    simp only [ht]
    have hn : isCookieNameValid (String.mk "session".data) = true := by decide
    simp only [hn, Bool.not_true, Bool.false_eq_true, if_false]
    have hs : String.mk "session".data = "session" := rfl
    simp [hs]
  unfold Request.Cookie readCookies
  rw [if_neg (by decide), hh]
  simp only [List.flatMap_cons, List.flatMap_nil, List.append_nil, hline, hsplit,
    List.filterMap_cons, hread, List.filterMap_nil, List.head?_cons, Option.map_some']

/-- What `http.SetCookie` writes for a value is read back from the `Cookie`
header `session=<written value>` as the value without its invalid bytes. -/
theorem Cookie_sanitized (r : Request) (v : String)
    (hh : r.CookieHeader = ["session=" ++ sanitizeCookieValue v]) :
    r.Cookie "session" = some (String.mk (v.data.filter validCookieValueByte)) := by
  have hall : ∀ c ∈ v.data.filter validCookieValueByte, validCookieValueByte c = true :=
    fun c hc => (List.mem_filter.1 hc).2
  have hallb : (v.data.filter validCookieValueByte).all validCookieValueByte = true := by
    rw [List.all_eq_true]
    exact hall
  have hsemi : ';' ∉ v.data.filter validCookieValueByte :=
    fun hm => (validCookieValueByte_plain _ (hall _ hm)).1 rfl
  have hdq : dquote ∉ v.data.filter validCookieValueByte :=
    fun hm => (validCookieValueByte_plain _ (hall _ hm)).2.1 rfl
  by_cases hq : ((v.data.filter validCookieValueByte).contains ' '
      || (v.data.filter validCookieValueByte).contains ',') = true
  · apply Cookie_session r (dquote :: (v.data.filter validCookieValueByte ++ [dquote]))
    · rw [hh]
      simp only [sanitizeCookieValue, hq, if_true]
      rfl
    · intro hm
      simp only [List.mem_cons, List.mem_append, List.mem_singleton] at hm
      rcases hm with h | h | h
      · revert h
        decide
      · exact hsemi h
      · revert h
        decide
    · intro b hb
      have : (dquote :: (v.data.filter validCookieValueByte ++ [dquote])).getLast? = some dquote := by
        rw [← List.cons_append, List.getLast?_append]
        rfl
      rw [this] at hb
      cases hb
      decide
    · unfold parseCookieValue
      have h1 : (dquote :: (v.data.filter validCookieValueByte ++ [dquote])).getLast?
          = some dquote := by
        rw [← List.cons_append, List.getLast?_append]
        rfl
      have hlen : 1 < (dquote :: (v.data.filter validCookieValueByte ++ [dquote])).length := by
        simp
      simp only [hlen, h1, List.head?_cons, and_self, if_true, List.drop_succ_cons,
        List.drop_zero, List.dropLast_concat, hallb]
  · have hq2 : ((v.data.filter validCookieValueByte).contains ' '
        || (v.data.filter validCookieValueByte).contains ',') = false := by
      simpa using hq
    apply Cookie_session r (v.data.filter validCookieValueByte)
    · rw [hh]
      simp only [sanitizeCookieValue, hq2, Bool.false_eq_true, if_false]
      rfl
    · exact hsemi
    · intro b hb
      have hbm : b ∈ v.data.filter validCookieValueByte := List.mem_of_mem_getLast? hb
      have hp := validCookieValueByte_plain b (hall b hbm)
      have hsp : b ≠ ' ' := by
        rintro rfl
        simp only [Bool.or_eq_false_iff] at hq2
        have hnm : ' ' ∉ v.data.filter validCookieValueByte := by
          simpa using hq2.1
        exact hnm hbm
      simp [isASCIISpace, hsp, hp.2.2.1, hp.2.2.2.1, hp.2.2.2.2]
    · unfold parseCookieValue
      have hnq : ¬ (1 < (v.data.filter validCookieValueByte).length ∧
          (v.data.filter validCookieValueByte).head? = some dquote ∧
          (v.data.filter validCookieValueByte).getLast? = some dquote) := by
        rintro ⟨_, hhd, _⟩
        exact hdq (List.mem_of_mem_head? hhd)
      simp only [hnq, if_false, hallb, if_true]

/-- On a path made of the pattern `/redirect/` and a suffix, the slice of the
redirect handler is in range and is the suffix. -/
theorem redirectType_eq_suffix (r : Request) (suffix : String)
    (hp : r.Path = "/redirect/" ++ suffix) :
    ¬ (r.Path.length < "/redirect/".length) ∧
      String.mk (r.Path.data.drop "/redirect/".length) = suffix := by
  rw [hp]
  constructor
  · simp [String.length_append]
  · have h : ("/redirect/" ++ suffix).data = "/redirect/".data ++ suffix.data :=
      String.data_append _ _
    rw [h]
    have h10 : "/redirect/".length = "/redirect/".data.length := rfl
    rw [h10, List.drop_left]

/-- The value `Get` returns is empty exactly when the key is absent or its
first value is empty. -/
theorem Get_eq_empty_iff (vs : List (String × String)) (key : String) :
    Get vs key = "" ↔ (vs.lookup key = none ∨ vs.lookup key = some "") := by
  unfold Get
  cases h : vs.lookup key <;> simp

/-- The redirect dispatcher never sets a cookie. -/
theorem redirectHandler_no_cookie (r : Request) (resp : Response)
    (h : redirectHandler r = some resp) : resp.SetCookies = [] := by
  unfold redirectHandler at h
  simp only at h
  split_ifs at h <;> (injection h with h; subst h; rfl)

/-- The login handler sets a cookie only for a POST with a non-empty user
name. -/
theorem loginHandler_no_cookie (r : Request)
    (h : ¬ (r.Method = MethodPost ∧ r.FormValue "username" ≠ "")) :
    (loginHandler r).SetCookies = [] := by
  unfold loginHandler
  by_cases hm : r.Method = MethodPost
  · by_cases hu : r.FormValue "username" = ""
    · simp only [if_pos hm, if_pos hu]
    · exact absurd ⟨hm, hu⟩ h
  · simp only [if_neg hm]

/-- The `Location` header of the redirect dispatcher for a known code and no
message is the destination itself. -/
theorem Location_destination (r : Request) (c : String)
    (hc : c ∈ ["301", "302", "307", "308"]) :
    Location r ("/destination?type=" ++ c) = "/destination?type=" ++ c := by
  simp only [List.mem_cons, List.mem_singleton, List.not_mem_nil, or_false] at hc
  rcases hc with rfl | rfl | rfl | rfl <;>
  · rw [Location_clean _ _ (by decide)]
    decide

/-! ## The redirect dispatcher -/

/-- C1: for each code c of 301, 302, 307, 308, a request whose path is exactly
`/redirect/<c>` is answered with status c, and with the redirect target
`/destination?type=<c>` when the extracted message is empty, which it is for
every method other than POST and PUT. -/
theorem redirect_known_code (r : Request) (c : String) (n : Nat)
    (hc : (c, n) ∈ [("301", StatusMovedPermanently), ("302", StatusFound),
      ("307", StatusTemporaryRedirect), ("308", StatusPermanentRedirect)])
    (hp : r.Path = "/redirect/" ++ c) :
    ∃ resp, redirectHandler r = some resp ∧ resp.status = n ∧ n.repr = c ∧
      (((r.Method = MethodPost ∨ r.Method = MethodPut) → r.FormValue "message" = "") →
        resp.location = some ("/destination?type=" ++ c)) ∧
      (r.Method ≠ MethodPost → r.Method ≠ MethodPut →
        resp.location = some ("/destination?type=" ++ c)) := by
  obtain ⟨hlen, hty⟩ := redirectType_eq_suffix r c hp
  simp only [List.mem_cons, Prod.mk.injEq, List.mem_singleton, List.not_mem_nil,
      or_false] at hc
  have hloc : Location r ("/destination?type=" ++ c) = "/destination?type=" ++ c := by
    apply Location_destination
    rcases hc with ⟨rfl, _⟩ | ⟨rfl, _⟩ | ⟨rfl, _⟩ | ⟨rfl, _⟩ <;> decide
  rcases hc with ⟨rfl, rfl⟩ | ⟨rfl, rfl⟩ | ⟨rfl, rfl⟩ | ⟨rfl, rfl⟩
  all_goals
    simp only [redirectHandler, if_neg hlen, hty]
    simp [Response.status, Response.location, Reply.status, Reply.location, Redirect]
    refine ⟨by decide, fun h => ?_, fun h1 h2 => ?_⟩
    · rw [if_neg (fun hh => hh.2 (h hh.1))]
      exact hloc
    · rw [if_neg (fun hh => hh.1.elim h1 h2)]
      exact hloc

/-- The known-code rule at a GET of `/redirect/307`. -/
theorem redirect_known_code_witness :
    ∃ resp, redirectHandler ⟨"GET", "/redirect/307", "", "/redirect/307", [], []⟩ = some resp ∧
      resp.status = 307 ∧ (307 : Nat).repr = "307" ∧
      ((("GET" = MethodPost ∨ "GET" = MethodPut) →
          Request.FormValue ⟨"GET", "/redirect/307", "", "/redirect/307", [], []⟩ "message" = "") →
        resp.location = some ("/destination?type=" ++ "307")) ∧
      ("GET" ≠ MethodPost → "GET" ≠ MethodPut →
        resp.location = some ("/destination?type=" ++ "307")) :=
  redirect_known_code ⟨"GET", "/redirect/307", "", "/redirect/307", [], []⟩ "307" 307
    (by decide) (by decide)

/-- C2: a request whose path is `/redirect/` followed by anything other than
"301", "302", "307" or "308" is answered with 404 not found, with no redirect
target and no cookie, whatever its method and form are. -/
theorem redirect_unknown_code (r : Request) (suffix : String)
    (hp : r.Path = "/redirect/" ++ suffix)
    (hs : suffix ∉ ["301", "302", "307", "308"]) :
    redirectHandler r = some ⟨[], .notFound⟩ ∧
      ∀ resp, redirectHandler r = some resp →
        resp.status = 404 ∧ resp.location = none ∧ resp.SetCookies = [] := by
  obtain ⟨hlen, hty⟩ := redirectType_eq_suffix r suffix hp
  simp only [List.mem_cons, List.mem_singleton, List.not_mem_nil, or_false, not_or] at hs
  obtain ⟨h1, h2, h3, h4⟩ := hs
  have h : redirectHandler r = some ⟨[], .notFound⟩ := by
    simp only [redirectHandler, if_neg hlen, hty, if_neg h1, if_neg h2, if_neg h3, if_neg h4]
  refine ⟨h, ?_⟩
  intro resp hresp
  rw [h] at hresp
  cases hresp
  exact ⟨rfl, rfl, rfl⟩

/-- The unknown-code rule at the suffixes `999`, empty and `301/`. -/
theorem redirect_unknown_code_witness :
    redirectHandler ⟨"POST", "/redirect/999", "", "/redirect/999", [("message", "hi")], []⟩
      = some ⟨[], .notFound⟩ ∧
    redirectHandler ⟨"GET", "/redirect/", "", "/redirect/", [], []⟩ = some ⟨[], .notFound⟩ ∧
    redirectHandler ⟨"GET", "/redirect/301/", "", "/redirect/301/", [], []⟩
      = some ⟨[], .notFound⟩ :=
  ⟨(redirect_unknown_code ⟨"POST", "/redirect/999", "", "/redirect/999", [("message", "hi")], []⟩
      "999" (by decide) (by decide)).1,
   (redirect_unknown_code ⟨"GET", "/redirect/", "", "/redirect/", [], []⟩
      "" (by decide) (by decide)).1,
   (redirect_unknown_code ⟨"GET", "/redirect/301/", "", "/redirect/301/", [], []⟩
      "301/" (by decide) (by decide)).1⟩

/-! ## The login demo -/

/-- C3, refuted as stated: a request whose `Cookie` header is `session=a"b`
carries a cookie named `session`, but net/http refuses the value and the
response is the 302 redirect; and for the request URL `/protected-page?q=é`
the `Location` header is not `/login?return_to=` followed by that URL, its
non-ASCII bytes being escaped. -/
theorem protected_page_cookie_refused :
    (protectedPageHandler
        ⟨"GET", "/protected-page", "", "/protected-page", [], ["session=a\"b"]⟩).status = 302 ∧
    (protectedPageHandler
        ⟨"GET", "/protected-page", "q=é", "/protected-page?q=é", [], []⟩).location
      = some "/login?return_to=/protected-page?q=%c3%a9" ∧
    (protectedPageHandler
        ⟨"GET", "/protected-page", "q=é", "/protected-page?q=é", [], []⟩).location
      ≠ some ("/login?return_to=" ++ "/protected-page?q=é") := by
  decide

/-- C3, amended: a request to `/protected-page`, of any method, in which
net/http finds no `session` cookie (none sent, or only with a value it
refuses) is answered with a 302 redirect whose `Location` is
`/login?return_to=` followed by the request URL with its non-ASCII bytes
escaped as `%xx`, which is the request URL itself when it is ASCII; a request
in which it finds one, whatever its value, the empty one included, is answered
with status 200, no redirect, and the page that welcomes the cookie value as
the user name.  No `Cookie` header gives no cookie, and the header
`session=<value>` gives the value, for every value made of valid cookie value
bytes, written between double quotes when it holds a space or a comma. -/
theorem protected_page_gate (r : Request) :
    (r.Cookie "session" = none →
      protectedPageHandler r = ⟨[], .redirect
        ("/login?return_to=" ++ String.mk (hexEscapeNonASCII r.URL.data)) StatusFound⟩ ∧
      (protectedPageHandler r).status = 302 ∧
      ((∀ c ∈ r.URL.data, c.toNat < 0x80) →
        (protectedPageHandler r).location = some ("/login?return_to=" ++ r.URL))) ∧
    (∀ value, r.Cookie "session" = some value →
      protectedPageHandler r = ⟨[], .page (protectedPage value)⟩ ∧
      (protectedPageHandler r).status = 200 ∧
      (protectedPageHandler r).location = none ∧
      ∃ before after,
        protectedPage value = before ++ ("<p>欢迎，" ++ value ++ "！</p>") ++ after) ∧
    (r.CookieHeader = [] → r.Cookie "session" = none) ∧
    (∀ value : String, (∀ c ∈ value.data, validCookieValueByte c = true) →
      r.CookieHeader = ["session=" ++ sanitizeCookieValue value] →
      r.Cookie "session" = some value) := by
  refine ⟨?_, ?_, ?_, ?_⟩
  · intro h
    have hloc : Location r ("/login?return_to=" ++ r.URL)
        = "/login?return_to=" ++ String.mk (hexEscapeNonASCII r.URL.data) := by
      have := Location_query r "/login" ("return_to=" ++ r.URL) (by decide) (by decide)
      rw [show "/login" ++ "?" ++ ("return_to=" ++ r.URL) = "/login?return_to=" ++ r.URL from by
        simp only [← String.append_assoc]; rfl] at this
      rw [this]
      exact hexEscape_prefix "/login?return_to=" r.URL (by decide)
    have : protectedPageHandler r = ⟨[], .redirect
        ("/login?return_to=" ++ String.mk (hexEscapeNonASCII r.URL.data)) StatusFound⟩ := by
      simp [protectedPageHandler, checkLogin, h, Redirect, hloc]
    rw [this]
    refine ⟨rfl, rfl, ?_⟩
    intro hascii
    rw [hexEscapeNonASCII_ascii _ hascii]
    rfl
  · intro value h
    have : protectedPageHandler r = ⟨[], .page (protectedPage value)⟩ := by
      simp [protectedPageHandler, checkLogin, h]
    rw [this]
    refine ⟨rfl, rfl, rfl, ?_⟩
    refine ⟨"\n\t\t\t<html>\n\t\t\t<body>\n\t\t\t\t<h1>受保护的页面</h1>\n\t\t\t\t",
      "\n\t\t\t\t<p>这是一个需要登录才能访问的页面。</p>\n\t\t\t\t<p>你现在已经登录了，所以可以看到这个内容。</p>\n\t\t\t\t<p><a href=\"/logout\">退出登录</a></p>\n\t\t\t\t<p><a href=\"/\">返回首页</a></p>\n\t\t\t</body>\n\t\t\t</html>\n\t\t", ?_⟩
    have e0 : "\n\t\t\t<html>\n\t\t\t<body>\n\t\t\t\t<h1>受保护的页面</h1>\n\t\t\t\t<p>欢迎，"
        = "\n\t\t\t<html>\n\t\t\t<body>\n\t\t\t\t<h1>受保护的页面</h1>\n\t\t\t\t" ++ "<p>欢迎，" := by decide
    have e1 : "！</p>\n\t\t\t\t<p>这是一个需要登录才能访问的页面。</p>\n\t\t\t\t<p>你现在已经登录了，所以可以看到这个内容。</p>\n\t\t\t\t<p><a href=\"/logout\">退出登录</a></p>\n\t\t\t\t<p><a href=\"/\">返回首页</a></p>\n\t\t\t</body>\n\t\t\t</html>\n\t\t"
        = "！</p>" ++ "\n\t\t\t\t<p>这是一个需要登录才能访问的页面。</p>\n\t\t\t\t<p>你现在已经登录了，所以可以看到这个内容。</p>\n\t\t\t\t<p><a href=\"/logout\">退出登录</a></p>\n\t\t\t\t<p><a href=\"/\">返回首页</a></p>\n\t\t\t</body>\n\t\t\t</html>\n\t\t" := by decide
    unfold protectedPage
    rw [e0, e1]
    simp only [String.append_assoc]
  · intro h
    simp [Request.Cookie, readCookies, h]
  · intro value hv h
    have := Cookie_sanitized r value h
    rw [List.filter_eq_self.2 hv] at this
    exact this

/-- The gate at a GET without a cookie, at a POST with an empty session
cookie, and at a GET with the session cookie `a b` sent between quotes. -/
theorem protected_page_gate_witness :
    (protectedPageHandler ⟨"GET", "/protected-page", "x=1", "/protected-page?x=1", [], []⟩
      = ⟨[], .redirect "/login?return_to=/protected-page?x=1" StatusFound⟩) ∧
    (protectedPageHandler
        ⟨"POST", "/protected-page", "", "/protected-page", [], ["session="]⟩
      = ⟨[], .page (protectedPage "")⟩) ∧
    (Request.Cookie ⟨"GET", "/protected-page", "", "/protected-page", [],
        ["session=\"a b\""]⟩ "session" = some "a b") :=
  ⟨((protected_page_gate
      ⟨"GET", "/protected-page", "x=1", "/protected-page?x=1", [], []⟩).1 (by decide)).1,
   ((protected_page_gate
      ⟨"POST", "/protected-page", "", "/protected-page", [], ["session="]⟩).2.1 ""
        (by decide)).1,
   (protected_page_gate
      ⟨"GET", "/protected-page", "", "/protected-page", [],
        ["session=\"a b\""]⟩).2.2.2 "a b" (by decide) (by decide)⟩

/-- C4, refuted as stated: a POST to `/login` with the user name `a;b` and the
`return_to` field `next` sets the cookie `session=ab`, not `session=a;b`, and
its `Location` header is `/next`, not `next`. -/
theorem login_post_rewritten :
    (loginHandler ⟨"POST", "/login", "", "/login",
        [("return_to", "next"), ("username", "a;b")], []⟩).SetCookies
      = [{ Name := "session", Value := "ab", Path := "/", MaxAge := 3600, HttpOnly := true }] ∧
    (loginHandler ⟨"POST", "/login", "", "/login",
        [("return_to", "next"), ("username", "a;b")], []⟩).SetCookies.map Cookie.header
      = ["session=ab; Path=/; Max-Age=3600; HttpOnly"] ∧
    (loginHandler ⟨"POST", "/login", "", "/login",
        [("return_to", "next"), ("username", "a;b")], []⟩).location = some "/next" ∧
    (loginHandler ⟨"POST", "/login", "", "/login",
        [("return_to", "next"), ("username", "a;b")], []⟩).location ≠ some "next" := by
  decide

/-- C4, amended: a POST to `/login` with a non-empty `username` field u sets
one cookie, `session`, with Path `/`, Max-Age 3600 and HttpOnly, whose value is
u as `http.SetCookie` writes it: without the bytes that are not valid in a
cookie value, and between double quotes when it holds a space or a comma; this
is u itself when u is made of valid bytes other than space and comma.  The
response is a 302 redirect whose `Location` is what `http.Redirect` makes of
the `return_to` field: the field itself when it is an ASCII absolute path in
clean form, with or without a query, and `/protected-page` when the field is
empty or absent. -/
theorem login_post_success (r : Request) (u : String)
    (hm : r.Method = MethodPost) (hu : r.FormValue "username" = u) (hne : u ≠ "") :
    (loginHandler r).SetCookies =
        [{ Name := "session", Value := sanitizeCookieValue u, Path := "/", MaxAge := 3600,
           HttpOnly := true }] ∧
      (loginHandler r).SetCookies.map Cookie.header =
        ["session=" ++ sanitizeCookieValue u ++ "; Path=/; Max-Age=3600; HttpOnly"] ∧
      ((∀ c ∈ u.data, validCookieValueByte c = true ∧ c ≠ ' ' ∧ c ≠ ',') →
        (loginHandler r).SetCookies =
          [{ Name := "session", Value := u, Path := "/", MaxAge := 3600, HttpOnly := true }]) ∧
      (loginHandler r).status = 302 ∧
      (r.FormValue "return_to" ≠ "" →
        (loginHandler r).location = some (Location r (r.FormValue "return_to"))) ∧
      (isCleanAbsolute (r.FormValue "return_to").data = true →
        (∀ c ∈ (r.FormValue "return_to").data, c.toNat < 0x80) →
        (loginHandler r).location = some (r.FormValue "return_to")) ∧
      ((r.Form.lookup "return_to" = none ∨ r.Form.lookup "return_to" = some "") →
        (loginHandler r).location = some "/protected-page") := by
  subst hu
  have h : loginHandler r =
      ⟨[{ Name := "session", Value := sanitizeCookieValue (r.FormValue "username"),
          Path := "/", MaxAge := 3600, HttpOnly := true }],
        .redirect (Location r (if r.FormValue "return_to" = "" then "/protected-page"
          else r.FormValue "return_to")) StatusFound⟩ := by
    have hn : isCookieNameValid "session" = true := by decide
    have hpath : sanitizeCookiePath "/" = "/" := by decide
    simp only [loginHandler, if_pos hm, if_neg hne, SetCookie, hn, if_true, hpath, Redirect]
  rw [h]
  refine ⟨rfl, ?_, ?_, rfl, ?_, ?_, ?_⟩
  · simp only [List.map_cons, List.map_nil, Cookie.header]
    have h36 : (3600 : Int).toNat.repr = "3600" := by decide
    simp only [h36, String.append_assoc]
    rfl
  · intro hv
    have hkeep : (r.FormValue "username").data.filter validCookieValueByte
        = (r.FormValue "username").data :=
      List.filter_eq_self.2 fun c hc => (hv c hc).1
    have hs : sanitizeCookieValue (r.FormValue "username") = r.FormValue "username" := by
      unfold sanitizeCookieValue
      simp only [hkeep]
      have h1 : (r.FormValue "username").data.contains ' ' = false := by
        simpa using fun hc => (hv ' ' hc).2.1 rfl
      have h2 : (r.FormValue "username").data.contains ',' = false := by
        simpa using fun hc => (hv ',' hc).2.2 rfl
      simp only [h1, h2, Bool.or_self, Bool.false_eq_true, if_false]
    rw [hs]
  · intro hr
    simp only [Response.location, Reply.location, if_neg hr]
  · intro hclean hascii
    have hr : r.FormValue "return_to" ≠ "" := by
      intro he
      rw [he] at hclean
      revert hclean
      decide
    simp only [Response.location, Reply.location, if_neg hr, Location_clean r _ hclean,
      hexEscapeNonASCII_ascii _ hascii]
  · intro hr
    have : r.FormValue "return_to" = "" := (Get_eq_empty_iff _ _).2 hr
    simp only [Response.location, Reply.location, if_pos this]
    rw [Location_clean _ _ (by decide)]
    decide

/-- The login rule at a POST with user name `alice` and the return address
`/protected-page?x=1`. -/
theorem login_post_success_witness :
    (loginHandler ⟨"POST", "/login", "", "/login",
        [("return_to", "/protected-page?x=1"), ("username", "alice")], []⟩).SetCookies =
        [{ Name := "session", Value := "alice", Path := "/", MaxAge := 3600, HttpOnly := true }] ∧
    (loginHandler ⟨"POST", "/login", "", "/login",
        [("return_to", "/protected-page?x=1"), ("username", "alice")], []⟩).location =
        some "/protected-page?x=1" :=
  ⟨(login_post_success ⟨"POST", "/login", "", "/login",
      [("return_to", "/protected-page?x=1"), ("username", "alice")], []⟩ "alice"
      (by decide) (by decide) (by decide)).2.2.1 (by decide),
   (login_post_success ⟨"POST", "/login", "", "/login",
      [("return_to", "/protected-page?x=1"), ("username", "alice")], []⟩ "alice"
      (by decide) (by decide) (by decide)).2.2.2.2.2.1 (by decide) (by decide)⟩

/-- C5: a POST to `/login` is answered with status 400 exactly when the
`username` field is empty or absent, and then sets no cookie and no redirect
target, whatever `return_to` is. -/
theorem login_post_empty_username (r : Request) (hm : r.Method = MethodPost) :
    ((loginHandler r).status = 400 ↔
        (r.Form.lookup "username" = none ∨ r.Form.lookup "username" = some "")) ∧
      ((r.Form.lookup "username" = none ∨ r.Form.lookup "username" = some "") →
        (loginHandler r).SetCookies = [] ∧ (loginHandler r).location = none) := by
  have hiff := Get_eq_empty_iff r.Form "username"
  by_cases hu : r.FormValue "username" = ""
  · have h : loginHandler r = ⟨[], .error "请输入用户名" StatusBadRequest⟩ := by
      simp only [loginHandler, if_pos hm, if_pos hu]
    rw [h]
    exact ⟨⟨fun _ => hiff.1 hu, fun _ => rfl⟩, fun _ => ⟨rfl, rfl⟩⟩
  · have h : (loginHandler r).status = 302 := by
      simp only [loginHandler, if_pos hm, if_neg hu]
      rfl
    refine ⟨⟨fun h4 => ?_, fun he => absurd (hiff.2 he) hu⟩, fun he => absurd (hiff.2 he) hu⟩
    rw [h] at h4
    exact absurd h4 (by decide)

/-- The empty-user-name rule at a POST with an empty `username` field. -/
theorem login_post_empty_username_witness :
    (loginHandler ⟨"POST", "/login", "", "/login",
        [("return_to", "/x"), ("username", "")], []⟩).status = 400 ∧
    (loginHandler ⟨"POST", "/login", "", "/login",
        [("return_to", "/x"), ("username", "")], []⟩).SetCookies = [] ∧
    (loginHandler ⟨"POST", "/login", "", "/login",
        [("return_to", "/x"), ("username", "")], []⟩).location = none :=
  ⟨(login_post_empty_username ⟨"POST", "/login", "", "/login",
      [("return_to", "/x"), ("username", "")], []⟩ (by decide)).1.2 (by decide),
   (login_post_empty_username ⟨"POST", "/login", "", "/login",
      [("return_to", "/x"), ("username", "")], []⟩ (by decide)).2 (by decide)⟩

/-- C6: every request to `/logout`, of any method and with or without a
session cookie, sets the cookie `session` with an empty value, Path `/` and a
negative Max-Age, and is a 302 redirect to `/`. -/
theorem logout_clears_session (r : Request) :
    (∃ c, (logoutHandler r).SetCookies = [c] ∧
        c.Name = "session" ∧ c.Value = "" ∧ c.Path = "/" ∧ c.MaxAge < 0) ∧
      (logoutHandler r).status = 302 ∧ (logoutHandler r).location = some "/" := by
  refine ⟨⟨_, rfl, rfl, by decide, by decide, by decide⟩, rfl, ?_⟩
  simp only [logoutHandler, Response.location, Reply.location, Redirect]
  rw [Location_clean _ _ (by decide)]
  decide

/-! ## The form handler -/

/-- C7, refuted as stated: a POST to `/submit-form` with the message `你好` has
the `Location` header `/destination?type=303&message=%e4%bd%a0%e5%a5%bd`, which
is not `/destination?type=303&message=` followed by the message field. -/
theorem submit_form_escapes :
    Request.FormValue ⟨"POST", "/submit-form", "", "/submit-form",
        [("message", "你好")], []⟩ "message" = "你好" ∧
    (submitFormHandler ⟨"POST", "/submit-form", "", "/submit-form",
        [("message", "你好")], []⟩).location
      = some "/destination?type=303&message=%e4%bd%a0%e5%a5%bd" ∧
    (submitFormHandler ⟨"POST", "/submit-form", "", "/submit-form",
        [("message", "你好")], []⟩).location
      ≠ some ("/destination?type=303&message=" ++ "你好") := by
  decide

/-- C7, amended: a request to `/submit-form` with a method other than POST is
answered with status 405 and no `Location` header; a POST is answered with a
303 redirect whose `Location` is `/destination?type=303&message=` followed by
the `message` field with its non-ASCII bytes escaped as `%xx`, which is the
field itself when it is ASCII, and the empty string when the field is
absent. -/
theorem submit_form_contract (r : Request) :
    (r.Method ≠ MethodPost →
      (submitFormHandler r).status = 405 ∧ (submitFormHandler r).location = none) ∧
    (r.Method = MethodPost →
      (submitFormHandler r).status = 303 ∧
      (submitFormHandler r).location =
        some ("/destination?type=303&message=" ++
          String.mk (hexEscapeNonASCII (r.FormValue "message").data)) ∧
      ((∀ c ∈ (r.FormValue "message").data, c.toNat < 0x80) →
        (submitFormHandler r).location =
          some ("/destination?type=303&message=" ++ r.FormValue "message")) ∧
      (r.Form.lookup "message" = none →
        (submitFormHandler r).location = some "/destination?type=303&message=")) := by
  constructor
  · intro hm
    have h : submitFormHandler r = ⟨[], .error "只接受 POST 请求" StatusMethodNotAllowed⟩ := by
      simp only [submitFormHandler, if_pos hm]
    rw [h]
    exact ⟨rfl, rfl⟩
  · intro hm
    have hloc : Location r ("/destination?type=303&message=" ++ r.FormValue "message")
        = "/destination?type=303&message=" ++
          String.mk (hexEscapeNonASCII (r.FormValue "message").data) := by
      have := Location_query r "/destination" ("type=303&message=" ++ r.FormValue "message")
        (by decide) (by decide)
      rw [show "/destination" ++ "?" ++ ("type=303&message=" ++ r.FormValue "message")
          = "/destination?type=303&message=" ++ r.FormValue "message" from by
        simp only [← String.append_assoc]; rfl] at this
      rw [this]
      exact hexEscape_prefix "/destination?type=303&message=" _ (by decide)
    have h : submitFormHandler r =
        ⟨[], .redirect ("/destination?type=303&message=" ++
          String.mk (hexEscapeNonASCII (r.FormValue "message").data)) StatusSeeOther⟩ := by
      simp only [submitFormHandler, ne_eq, hm, not_true_eq_false, if_false, Redirect, hloc]
    rw [h]
    refine ⟨rfl, rfl, ?_, ?_⟩
    · intro hascii
      rw [hexEscapeNonASCII_ascii _ hascii]
      rfl
    · intro hl
      have : r.FormValue "message" = "" := (Get_eq_empty_iff _ _).2 (Or.inl hl)
      rw [this]
      rfl

/-- The form rule at a GET, at a POST with the message `test` and at a POST
without a message. -/
theorem submit_form_contract_witness :
    (submitFormHandler ⟨"GET", "/submit-form", "", "/submit-form", [], []⟩).status = 405 ∧
    (submitFormHandler ⟨"POST", "/submit-form", "", "/submit-form",
        [("message", "test")], []⟩).location = some "/destination?type=303&message=test" ∧
    (submitFormHandler ⟨"POST", "/submit-form", "", "/submit-form", [], []⟩).location
      = some "/destination?type=303&message=" :=
  ⟨((submit_form_contract ⟨"GET", "/submit-form", "", "/submit-form", [], []⟩).1
      (by decide)).1,
   ((submit_form_contract ⟨"POST", "/submit-form", "", "/submit-form",
      [("message", "test")], []⟩).2 (by decide)).2.2.1 (by decide),
   ((submit_form_contract ⟨"POST", "/submit-form", "", "/submit-form", [], []⟩).2
      (by decide)).2.2.2 (by decide)⟩

/-! ## The session as a state machine -/

/-- C10, refuted as stated: after a POST to `/login` with the user name `a;b`
the client holds the session cookie `ab`, and `/protected-page` then answers
with the page that welcomes `ab`, not `a;b`. -/
theorem session_name_sanitized :
    receive none (loginHandler (submitLogin "/protected-page" "a;b" [])) = some "ab" ∧
    protectedPageHandler (follow "/protected-page"
        (cookieHeader (receive none (loginHandler (submitLogin "/protected-page" "a;b" [])))))
      = ⟨[], .page (protectedPage "ab")⟩ ∧
    protectedPage "ab" ≠ protectedPage "a;b" :=
  ⟨by decide, by rfl, by decide⟩

/-- C10, amended: with the client state taken as the session cookie it holds
and sends back, a POST to `/login` with a non-empty user name leads to a state
in which `/protected-page` answers 200 with the user name as `http.SetCookie`
writes it and `r.Cookie` reads it back, that is without the bytes that are not
valid in a cookie value, which is that user name when it has none; a request
to `/logout` leads to a state in which `/protected-page` answers with the 302
to `/login`; and every other response of the seven handlers sets no cookie and
leaves the state as it was. -/
theorem session_state_machine (held : Option String) (route : Route) (r : Request)
    (resp : Response) (h : serve route r = some resp) (next : Request) :
    (route = .login → r.Method = MethodPost → r.FormValue "username" ≠ "" →
      receive held resp = some (sanitizeCookieValue (r.FormValue "username")) ∧
      protectedPageHandler { next with CookieHeader := cookieHeader (receive held resp) }
        = ⟨[], .page (protectedPage
            (String.mk ((r.FormValue "username").data.filter validCookieValueByte)))⟩ ∧
      (protectedPageHandler
        { next with CookieHeader := cookieHeader (receive held resp) }).status = 200 ∧
      ((∀ c ∈ (r.FormValue "username").data, validCookieValueByte c = true) →
        protectedPageHandler { next with CookieHeader := cookieHeader (receive held resp) }
          = ⟨[], .page (protectedPage (r.FormValue "username"))⟩)) ∧
    (route = .logout →
      receive held resp = none ∧
      protectedPageHandler { next with CookieHeader := cookieHeader (receive held resp) }
        = ⟨[], .redirect ("/login?return_to=" ++ String.mk (hexEscapeNonASCII next.URL.data))
            StatusFound⟩ ∧
      (protectedPageHandler
        { next with CookieHeader := cookieHeader (receive held resp) }).status = 302) ∧
    (route ≠ .logout →
      ¬ (route = .login ∧ r.Method = MethodPost ∧ r.FormValue "username" ≠ "") →
      resp.SetCookies = [] ∧ receive held resp = held) := by
  refine ⟨?_, ?_, ?_⟩
  · rintro rfl hm hu
    have hresp : resp = loginHandler r := by
      simp only [serve, Option.some.injEq] at h
      exact h.symm
    have hrec : receive held resp = some (sanitizeCookieValue (r.FormValue "username")) := by
      rw [hresp]
      have hn : isCookieNameValid "session" = true := by decide
      simp only [loginHandler, if_pos hm, if_neg hu, SetCookie, hn, if_true]
      rfl
    have hcookie : Request.Cookie
        { next with CookieHeader := cookieHeader (receive held resp) } "session"
        = some (String.mk ((r.FormValue "username").data.filter validCookieValueByte)) := by
      apply Cookie_sanitized
      rw [hrec]
      rfl
    have hpage : protectedPageHandler
        { next with CookieHeader := cookieHeader (receive held resp) }
        = ⟨[], .page (protectedPage
            (String.mk ((r.FormValue "username").data.filter validCookieValueByte)))⟩ := by
      simp [protectedPageHandler, checkLogin, hcookie]
    refine ⟨hrec, hpage, ?_, ?_⟩
    · rw [hpage]
      rfl
    · intro hv
      rw [hpage, List.filter_eq_self.2 hv]
  · rintro rfl
    have hresp : resp = logoutHandler r := by
      simp only [serve, Option.some.injEq] at h
      exact h.symm
    have hrec : receive held resp = none := by
      rw [hresp]
      have hn : isCookieNameValid "session" = true := by decide
      simp only [logoutHandler, SetCookie, hn, if_true]
      rfl
    have hcookie : Request.Cookie
        { next with CookieHeader := cookieHeader (receive held resp) } "session" = none := by
      rw [hrec]
      simp [Request.Cookie, readCookies, cookieHeader]
    have hloc : Location { next with CookieHeader := cookieHeader (receive held resp) }
        ("/login?return_to=" ++ next.URL)
        = "/login?return_to=" ++ String.mk (hexEscapeNonASCII next.URL.data) := by
      have := Location_query { next with CookieHeader := cookieHeader (receive held resp) }
        "/login" ("return_to=" ++ next.URL) (by decide) (by decide)
      rw [show "/login" ++ "?" ++ ("return_to=" ++ next.URL) = "/login?return_to=" ++ next.URL
        from by simp only [← String.append_assoc]; rfl] at this
      rw [this]
      exact hexEscape_prefix "/login?return_to=" next.URL (by decide)
    have hpage : protectedPageHandler
        { next with CookieHeader := cookieHeader (receive held resp) }
        = ⟨[], .redirect ("/login?return_to=" ++ String.mk (hexEscapeNonASCII next.URL.data))
            StatusFound⟩ := by
      simp [protectedPageHandler, checkLogin, hcookie, Redirect, hloc]
    refine ⟨hrec, hpage, ?_⟩
    rw [hpage]
    rfl
  · intro hlo hli
    have hc : resp.SetCookies = [] := by
      cases route
      case home =>
        simp only [serve, Option.some.injEq] at h
        subst h
        unfold homeHandler
        split_ifs <;> rfl
      case destination =>
        simp only [serve, Option.some.injEq] at h
        subst h
        rfl
      case submitForm =>
        simp only [serve, Option.some.injEq] at h
        subst h
        unfold submitFormHandler
        split_ifs <;> rfl
      case protectedPage =>
        simp only [serve, Option.some.injEq] at h
        subst h
        unfold protectedPageHandler checkLogin
        cases r.Cookie "session" <;> rfl
      case login =>
        simp only [serve, Option.some.injEq] at h
        subst h
        exact loginHandler_no_cookie r (fun hh => hli ⟨rfl, hh.1, hh.2⟩)
      case logout => exact absurd rfl hlo
      case redirect => exact redirectHandler_no_cookie r resp h
    refine ⟨hc, ?_⟩
    simp only [receive, hc, List.foldl_nil]

/-- The three kinds of transition at a login with the user name `alice`
followed by a visit of the protected page, at a logout followed by such a
visit, and at a visit of the home page. -/
theorem session_state_machine_witness :
    (receive none (loginHandler (submitLogin "/protected-page" "alice" [])) = some "alice" ∧
      protectedPageHandler (follow "/protected-page" ["session=alice"])
        = ⟨[], .page (protectedPage "alice")⟩) ∧
    (receive (some "alice") (logoutHandler (follow "/logout" ["session=alice"])) = none ∧
      protectedPageHandler (follow "/protected-page" [])
        = ⟨[], .redirect "/login?return_to=/protected-page" StatusFound⟩) ∧
    receive (some "alice") (homeHandler (follow "/" ["session=alice"])) = some "alice" :=
  ⟨⟨((session_state_machine none .login (submitLogin "/protected-page" "alice" []) _ rfl
        (follow "/protected-page" [])).1 rfl (by decide) (by decide)).1,
    ((session_state_machine none .login (submitLogin "/protected-page" "alice" []) _ rfl
        (follow "/protected-page" [])).1 rfl (by decide) (by decide)).2.2.2 (by decide)⟩,
   ⟨((session_state_machine (some "alice") .logout
        (follow "/logout" ["session=alice"]) _ rfl (follow "/protected-page" [])).2.1 rfl).1,
    ((session_state_machine (some "alice") .logout
        (follow "/logout" ["session=alice"]) _ rfl (follow "/protected-page" [])).2.1 rfl).2.1⟩,
   ((session_state_machine (some "alice") .home
      (follow "/" ["session=alice"]) _ rfl (follow "/" [])).2.2 (by decide) (by decide)).2⟩

/-! ## Messages and return addresses in query strings -/

/-- C8, the code at a failing input: for a POST to `/redirect/307` with the
message `a&b` the redirect target carries the message as it is, not its
URL-encoding `a%26b`, and the query string of the target gives `type` 307 but
`message` `a`; the URL-encoded target would give back `a&b`. -/
theorem redirect_message_not_encoded :
    redirectHandler ⟨"POST", "/redirect/307", "", "/redirect/307", [("message", "a&b")], []⟩
      = some ⟨[], .redirect "/destination?type=307&message=a&b" StatusTemporaryRedirect⟩ ∧
    "/destination?type=307&message=" ++ QueryEscape "a&b" = "/destination?type=307&message=a%26b" ∧
    Get (ParseQuery (queryOf "/destination?type=307&message=a&b")) "type" = "307" ∧
    Get (ParseQuery (queryOf "/destination?type=307&message=a&b")) "message" = "a" ∧
    Get (ParseQuery (queryOf "/destination?type=307&message=a%26b")) "message" = "a&b" := by
  decide

/-- C9, the code at a failing input: the request URL `/protected-page?a=1&b=2`
without a session cookie is redirected to
`/login?return_to=/protected-page?a=1&b=2`; the login form served there
carries the `return_to` value `/protected-page?a=1`, and posting it back with
a user name redirects to `/protected-page?a=1`, not to the request URL. -/
theorem login_return_to_truncated :
    protectedPageHandler
        ⟨"GET", "/protected-page", "a=1&b=2", "/protected-page?a=1&b=2", [], []⟩
      = ⟨[], .redirect "/login?return_to=/protected-page?a=1&b=2" StatusFound⟩ ∧
    loginHandler (follow "/login?return_to=/protected-page?a=1&b=2" [])
      = ⟨[], .page (loginPage "/protected-page?a=1")⟩ ∧
    (loginHandler (submitLogin "/protected-page?a=1" "alice" [])).location
      = some "/protected-page?a=1" ∧
    (loginHandler (submitLogin "/protected-page?a=1" "alice" [])).location
      ≠ some "/protected-page?a=1&b=2" :=
  ⟨by decide, by rfl, by decide, by decide⟩

end Http3xx
